import Mathlib

/-!
Shallow embedding of `src/main/resources/micrometa/imagej.py` (module
`micrometa.imagej`): generation of tile-configuration files for the
Fiji stitcher and of ImageJ macro code, plus template location.

Python strings are modelled as Lean `String` (reasoned about through the
underlying `List Char`); Python floats appearing as position coordinates
are modelled as `Rat` (no arithmetic is performed on them in this module,
they are only formatted); fallible Python code (raising exceptions) is
modelled with `Option` / `Except`. The filesystem queried by
`os.listdir`, `pathtools.exists` and `iotools.readtxt` is an explicit
environment parameter.
-/

namespace Micrometa

/-! ### Python string primitives -/

/-- Embedding of the Python expression `s.startswith(pre)`. -/
def pyStartsWith (s pre : String) : Bool :=
  List.isPrefixOf pre.data s.data

/-- Embedding of the Python expression `s.endswith(suf)`. -/
def pyEndsWith (s suf : String) : Bool :=
  List.isSuffixOf suf.data s.data

/-- Embedding of the Python expression `s.lower()` (ASCII lowering). -/
def pyToLower (s : String) : String :=
  String.mk (s.data.map Char.toLower)

/-- Embedding of the Python slice `s[n:]` (drop the first `n` characters). -/
def pyDrop (s : String) (n : Nat) : String :=
  String.mk (s.data.drop n)

/-- Character-wise replacement on a character list: each occurrence of `c`
is replaced by the character list `r`. -/
def replaceCharList (c : Char) (r : List Char) : List Char → List Char
  | [] => []
  | a :: as => (if a = c then r else [a]) ++ replaceCharList c r as

/-- Embedding of the Python expression `s.replace(c, r)` for a
single-character pattern `c`. -/
def pyReplaceChar (s : String) (c : Char) (r : String) : String :=
  String.mk (replaceCharList c r.data s.data)

/-- Left-pad a string with zeros to width `w`; embedding of the padding
performed by the Python format `%0<w>i` (and of `str.zfill` for
non-negative numbers). -/
def pyZFill (w : Nat) (s : String) : String :=
  String.mk (List.replicate (w - s.length) '0') ++ s

/-- Lexicographic comparison of character lists by code point, the
ordering Python uses to compare and sort strings. -/
def lexLe : List Char → List Char → Bool
  | [], _ => true
  | _ :: _, [] => false
  | a :: as, b :: bs =>
    if a.toNat < b.toNat then true
    else if b.toNat < a.toNat then false
    else lexLe as bs

/-- Embedding of the Python string comparison `a <= b`. -/
def pyStrLe (a b : String) : Bool :=
  lexLe a.data b.data

/-- The Python string order as a relation, used for `candidates.sort()`. -/
def pyLeR : String → String → Prop := fun a b => pyStrLe a b = true

instance : DecidableRel pyLeR := fun a b => inferInstanceAs (Decidable (pyStrLe a b = true))

/-- Index of the last occurrence of `c` (the Python `s.rfind(c)`, with
`none` for the Python result `-1`). -/
def lastIdxOf (c : Char) : List Char → Option Nat
  | [] => none
  | a :: as =>
    match lastIdxOf c as with
    | some i => some (i + 1)
    | none => if a = c then some 0 else none

/-- Drop trailing occurrences of `c` (the Python `s.rstrip(c)`). -/
def dropTrailing (c : Char) (l : List Char) : List Char :=
  (l.reverse.dropWhile (fun a => a = c)).reverse

/-! ### posixpath primitives used by the module -/

/-- Embedding of `posixpath.dirname`: everything up to the last slash,
with trailing slashes stripped unless the head is all slashes. -/
def dirname (p : String) : String :=
  match lastIdxOf '/' p.data with
  | none => ""
  | some i =>
    let head := p.data.take (i + 1)
    if head.all (fun a => a = '/') then String.mk head
    else String.mk (dropTrailing '/' head)

/-- Embedding of `posixpath.basename`: everything after the last slash. -/
def basename (p : String) : String :=
  match lastIdxOf '/' p.data with
  | none => p
  | some i => String.mk (p.data.drop (i + 1))

/-- Embedding of the first component of `posixpath.splitext`: the path
with its extension removed.  The extension starts at the last dot that
lies after the last slash and is not part of a leading run of dots of
the final path component. -/
def splitextFst (p : String) : String :=
  match lastIdxOf '.' p.data with
  | none => p
  | some d =>
    let s : Nat :=
      match lastIdxOf '/' p.data with
      | none => 0
      | some i => i + 1
    if s ≤ d then
      if ((p.data.take d).drop s).any (fun a => a ≠ '.') then
        String.mk (p.data.take d)
      else p
    else p

/-- Embedding of the two-argument `posixpath.join`. -/
def posixJoin (a b : String) : String :=
  if pyStartsWith b "/" then b
  else if a = "" then a ++ b
  else if pyEndsWith a "/" then a ++ b
  else a ++ "/" ++ b

/-! ### Float formatting -/

/-- Idealised embedding of the Python format `%f` applied to a coordinate
value: fixed-point decimal rendering with six places after the dot.  The
scaled value is the floor of `q * 10^6 + 1/2`, written on the numerator
and denominator of `q` as a floor division of integers. -/
def pyFloat (q : Rat) : String :=
  let scaled : Int := Int.fdiv (2000000 * q.num + q.den) (2 * q.den)
  let sign := if scaled < 0 then "-" else ""
  let n := scaled.natAbs
  sign ++ toString (n / 1000000) ++ "." ++ pyZFill 6 (toString (n % 1000000))

/-! ### Data model (external collaborators of the module) -/

/-- One sub-volume of a mosaic: the fields of `micrometa.dataset` objects
that `imagej.py` reads.  `dimZ` is the value of
`get_dimensions()['Z']`, `relative` the coordinate tuple
`position['relative']`, `storageFull` the string `storage['full']`. -/
structure SubVolume where
  dimZ : Nat
  relative : List Rat
  storageFull : String
deriving DecidableEq

/-- One mosaic dataset: the fields of `micrometa.dataset.MosaicData` that
`imagej.py` reads.  `storagePath` is `storage['path']`, `index` is
`supplement['index']`, `overlapPct` is `get_overlap('pct')`. -/
structure MosaicData where
  subvol : List SubVolume
  storagePath : String
  index : Nat
  overlapPct : Rat
deriving DecidableEq

/-- An experiment: the fields of `micrometa.experiment.MosaicExperiment`
that `imagej.py` reads.  `infileDname` is `infile['dname']`; iteration,
`len()` and indexing go through `mosaics`. -/
structure Experiment where
  infileDname : String
  mosaics : List MosaicData
deriving DecidableEq

/-- Applying an `Option`-valued function to every list element, failing
as soon as one application fails (embedding of a Python loop whose body
may raise). -/
def optionMapList (f : α → Option β) : List α → Option (List β)
  | [] => some []
  | a :: as =>
    match f a, optionMapList f as with
    | some b, some bs => some (b :: bs)
    | _, _ => none

/-! ### gen_tile_config -/

/-- The three coordinate format strings chosen at lines 39-47 of
`imagej.py`: `(%f, %f)\n`, `(%f, %f, 0.0)\n` and `(%f, %f, %f)\n`. -/
inductive CoordFmt
  | two
  | threePad
  | three
deriving DecidableEq

/-- Rendering of the format `(%f, %f)\n` at concrete coordinates. -/
def coord2Str (x y : Rat) : String :=
  "(" ++ pyFloat x ++ ", " ++ pyFloat y ++ ")\n"

/-- Rendering of the formats `(%f, %f, 0.0)\n` and `(%f, %f, %f)\n` at
concrete coordinates (`z` is the already-rendered third column). -/
def coord3Str (x y : Rat) (z : String) : String :=
  "(" ++ pyFloat x ++ ", " ++ pyFloat y ++ ", " ++ z ++ ")\n"

/-- Embedding of the Python expression `coord_format % vol.position['relative']`:
the `%` operator demands that the tuple length match the number of `%f`
placeholders exactly, and raises `TypeError` otherwise (`none`). -/
def applyCoordFmt : CoordFmt → List Rat → Option String
  | .two, [x, y] => some (coord2Str x y)
  | .threePad, [x, y] => some (coord3Str x y "0.0")
  | .three, [x, y, z] => some (coord3Str x y (pyFloat z))
  | _, _ => none

/-- Embedding of the loop body at lines 50-59 of `imagej.py`: shorten the
sub-volume path to be relative to the mosaic path when it starts with
it, append the separator `; ; `, replace backslashes by forward slashes,
then append the formatted coordinates. -/
def tileLine (fmt : CoordFmt) (storagePath : String) (vol : SubVolume) : Option String :=
  let volFname :=
    if pyStartsWith vol.storageFull storagePath then
      pyDrop vol.storageFull storagePath.length
    else vol.storageFull
  let line := pyReplaceChar (volFname ++ "; ; ") '\\' "/"
  (applyCoordFmt fmt vol.relative).map (fun c => line ++ c)

/-- The coordinate format chosen at lines 39-47 of `imagej.py` from the
first sub-volume: three columns when the z-dimension exceeds 1 (the
third a literal `0.0` when the position tuple is shorter than 3),
two columns otherwise. -/
def chooseFmt (v0 : SubVolume) : CoordFmt :=
  if v0.dimZ > 1 then
    if v0.relative.length < 3 then .threePad else .three
  else .two

/-- The `dim = 2|3` line chosen at lines 39-46 of `imagej.py` from the
first sub-volume. -/
def dimLineOf (v0 : SubVolume) : String :=
  if v0.dimZ > 1 then "dim = 3\n" else "dim = 2\n"

/-- Embedding of `gen_tile_config` (lines 16-60 of `imagej.py`).  The
`version` argument stands for the package attribute `__version__`; the
module name `micrometa.imagej` is fixed.  Reading `subvol[0]` of an
empty list raises `IndexError` (`none`), as does a coordinate tuple
whose length does not match the chosen format. -/
def gen_tile_config (version : String) (m : MosaicData) : Option (List String) :=
  match m.subvol with
  | [] => none
  | v0 :: _ =>
    (optionMapList (tileLine (chooseFmt v0) m.storagePath) m.subvol).map (fun lines =>
      ("# Generated by micrometa.imagej (" ++ version ++ ").\n#\n") ::
      "# Define the number of dimensions we are working on\n" ::
      dimLineOf v0 ::
      "# Define the image coordinates (in pixels)\n" :: lines)

/-! ### write_tile_config / write_all_tile_configs -/

/-- Embedding of the pure part of `write_tile_config` (lines 63-91): the
output filename `mosaic_<index>.txt` with the index zero-padded to
`padlen`, joined onto the output directory (the mosaic storage path when
`outdir` is empty), paired with the generated configuration lines. -/
def write_tile_config (version : String) (m : MosaicData) (outdir : String) (padlen : Nat) :
    Option (String × List String) :=
  (gen_tile_config version m).map (fun config =>
    let fname := "mosaic_" ++ pyZFill padlen (toString m.index) ++ ".txt"
    let fname :=
      if outdir = "" then posixJoin m.storagePath fname
      else posixJoin outdir fname
    (fname, config))

/-- Embedding of `write_all_tile_configs` (lines 94-102): the padding
width is `len(str(len(experiment)))`, the decimal width of the mosaic
count; the result lists, per mosaic, the filename written and the lines
written to it. -/
def write_all_tile_configs (version : String) (experiment : Experiment) (outdir : String) :
    Option (List (String × List String)) :=
  let padlen := (toString experiment.mosaics.length).length
  optionMapList (fun m => write_tile_config version m outdir padlen) experiment.mosaics

/-! ### locate_templates -/

/-- The filesystem environment: `listdir` embeds `os.listdir` (the list
of names in a directory), `pathExists` embeds `pathtools.exists`, and
`readtxt` embeds `iotools.readtxt fname path` (the lines of a template
file inside a directory or archive). -/
structure FS where
  listdir : String → List String
  pathExists : String → Bool
  readtxt : String → String → List String

/-- The kinds of exception the embedded functions raise themselves:
`ioError` for the explicit `raise IOError(...)`, `indexError` for an
out-of-range subscript such as `candidates[-1]` on an empty list. -/
inductive PyErr
  | ioError (msg : String)
  | indexError
deriving DecidableEq

/-- Decides whether an error is an `IOError`. -/
def PyErr.isIOError : PyErr → Bool
  | .ioError _ => true
  | .indexError => false

instance {ε α : Type} [DecidableEq ε] [DecidableEq α] : DecidableEq (Except ε α) := fun a b =>
  match a, b with
  | Except.error x, Except.error y =>
    if h : x = y then isTrue (by rw [h]) else isFalse (by intro hc; cases hc; exact h rfl)
  | Except.ok x, Except.ok y =>
    if h : x = y then isTrue (by rw [h]) else isFalse (by intro hc; cases hc; exact h rfl)
  | Except.error _, Except.ok _ => isFalse (by intro hc; cases hc)
  | Except.ok _, Except.error _ => isFalse (by intro hc; cases hc)

/-- Embedding of lines 108-113 of `locate_templates`: when the argument
is empty, default to the `ijm_templates` directory next to the module
file (`fileDir` stands for `dirname(__file__)`), falling back to the
`.zip` variant when the directory does not exist. -/
def defaultedTplPath (fs : FS) (fileDir tplpath : String) : String :=
  if tplpath = "" then
    let p := posixJoin fileDir "ijm_templates"
    if fs.pathExists p then p else p ++ ".zip"
  else tplpath

/-- The candidate jar names considered at lines 118-124: the entries of
the directory containing `tpl` whose names start with the basename of
`tpl` minus its extension. -/
def jarCandidates (fs : FS) (tpl : String) : List String :=
  (fs.listdir (dirname tpl)).filter (fun c => pyStartsWith c (basename (splitextFst tpl)))

/-- Embedding of `locate_templates` (lines 105-132).  After defaulting,
a path ending in `.jar` (case-insensitively) is replaced by the last
element of the ascending sort of the matching directory entries;
`candidates[-1]` on an empty candidate list raises `IndexError`.  The
final existence check raises `IOError` when it fails.  The ascending
stable sort `candidates.sort()` is embedded as insertion sort over the
Python string order `pyLeR`, which agrees with any ascending sort on a
list of strings. -/
def locate_templates (fs : FS) (fileDir tplpath : String) : Except PyErr String :=
  let tpl := defaultedTplPath fs fileDir tplpath
  let step : Except PyErr String :=
    if pyEndsWith (pyToLower tpl) ".jar" then
      match (List.insertionSort pyLeR (jarCandidates fs tpl)).getLast? with
      | none => Except.error PyErr.indexError
      | some best => Except.ok (posixJoin (dirname tpl) best)
    else Except.ok tpl
  match step with
  | Except.error e => Except.error e
  | Except.ok p =>
    if fs.pathExists p then Except.ok p
    else Except.error (PyErr.ioError "Templates location can't be found!")

/-! ### gen_stitching_macro_code -/

/-- Embedding of `gen_stitching_macro_code` (lines 135-195).  `opts`
models the Python dict as an association list in iteration order.
Failures of `locate_templates` propagate; `experiment[0]` on an
experiment without mosaics raises `IndexError`. -/
def gen_stitching_macro_code (fs : FS) (fileDir version : String) (experiment : Experiment)
    (pfx path tplpath : String) (opts : List (String × String)) :
    Except PyErr (List String) :=
  match locate_templates fs fileDir tplpath with
  | Except.error e => Except.error e
  | Except.ok templates =>
    match experiment.mosaics.head? with
    | none => Except.error PyErr.indexError
    | some m0 =>
      Except.ok (
        ["// Generated by micrometa.imagej (" ++ version ++ ").\n\n",
         "// =================== BEGIN macro HEAD ===================\n"]
        ++ fs.readtxt (pfx ++ "_head.ijm") templates
        ++ ["// ==================== END macro HEAD ====================\n",
            "\n",
            "name = \"" ++ experiment.infileDname ++ "\";\n",
            "input_dir=\"" ++ pyReplaceChar path '\\' "\\\\" ++ "\";\n",
            "use_batch_mode = true;\n"]
        ++ opts.map (fun kv => kv.1 ++ " = " ++ kv.2 ++ ";\n")
        ++ (if m0.overlapPct < 5 then ["compute = false;\n"] else [])
        ++ ["\n",
            "// =================== BEGIN macro BODY ===================\n"]
        ++ fs.readtxt (pfx ++ "_body.ijm") templates
        ++ ["// ==================== END macro BODY ====================\n"])

/-! ### File-handle traces of the two writers -/

/-- The file operations a writer performs on its output file. -/
inductive FileOp
  | fopen
  | fwrite
  | fclose
deriving DecidableEq

/-- Embedding of the file handling of `write_tile_config` (lines 88-90):
`out = open(fname, 'w')`, `out.writelines(config)`, `out.close()` as
three plain statements with no scoping construct.  The argument records
whether the `writelines` call succeeds; when it raises, the exception
propagates immediately and the `close` statement is never reached. -/
def write_tile_config_ops (writeOk : Bool) : List FileOp :=
  if writeOk then [.fopen, .fwrite, .fclose] else [.fopen, .fwrite]

/-- Embedding of the file handling of `write_stitching_macro`
(lines 212-214): `with open(fname, 'w') as out` scopes the handle, so
the close runs when the block is left, also when `writelines` raises. -/
def write_stitching_macro_ops (_writeOk : Bool) : List FileOp :=
  [.fopen, .fwrite, .fclose]

/-- Embedding of the pure part of `write_stitching_macro` (lines
198-214): the target filename joined onto the output directory, paired
with the lines written. -/
def write_stitching_macro_result (code : List String) (fname dname : String) :
    String × List String :=
  (posixJoin dname fname, code)

/-! ### Concrete instances used to exercise the theorems -/

/-- A 2-D mosaic with one sub-volume. -/
def mC1 : MosaicData := ⟨[⟨1, [0, 0], "/data/m/t1.tif"⟩], "/data/m/", 1, 2⟩

/-- The configuration generated for `mC1`. -/
def confC1 : List String :=
  ["# Generated by micrometa.imagej (0.1).\n#\n",
   "# Define the number of dimensions we are working on\n",
   "dim = 2\n",
   "# Define the image coordinates (in pixels)\n",
   "t1.tif; ; (0.000000, 0.000000)\n"]

/-- A 3-D mosaic (z-dimension 5) whose positions have two components. -/
def mC2 : MosaicData :=
  ⟨[⟨5, [1, 2], "/data/m/t1.tif"⟩, ⟨5, [3, 4], "/data/m/t2.tif"⟩], "/data/m/", 1, 2⟩

/-- The configuration generated for `mC2`. -/
def confC2 : List String :=
  ["# Generated by micrometa.imagej (0.1).\n#\n",
   "# Define the number of dimensions we are working on\n",
   "dim = 3\n",
   "# Define the image coordinates (in pixels)\n",
   "t1.tif; ; (1.000000, 2.000000, 0.0)\n",
   "t2.tif; ; (3.000000, 4.000000, 0.0)\n"]

/-- A two-mosaic experiment whose mosaic indexes are 1 and 100. -/
def expC3 : Experiment :=
  ⟨"e", [⟨[⟨1, [0, 0], "a.tif"⟩], "", 1, 2⟩, ⟨[⟨1, [0, 0], "b.tif"⟩], "", 100, 2⟩]⟩

/-- The writes performed for `expC3` into directory `out`. -/
def wsC3 : List (String × List String) :=
  [("out/mosaic_1.txt",
    ["# Generated by micrometa.imagej (0.1).\n#\n",
     "# Define the number of dimensions we are working on\n",
     "dim = 2\n",
     "# Define the image coordinates (in pixels)\n",
     "a.tif; ; (0.000000, 0.000000)\n"]),
   ("out/mosaic_100.txt",
    ["# Generated by micrometa.imagej (0.1).\n#\n",
     "# Define the number of dimensions we are working on\n",
     "dim = 2\n",
     "# Define the image coordinates (in pixels)\n",
     "b.tif; ; (0.000000, 0.000000)\n"])]

/-- A filesystem with a directory `/lib` holding two versioned jars. -/
def fsW : FS :=
  ⟨fun d => if d = "/lib" then ["foo-1.0.0.jar", "foo-1.2.0.jar", "bar.txt"] else [],
   fun _ => true, fun _ _ => []⟩

/-- A filesystem whose directories are all empty. -/
def fsE : FS := ⟨fun _ => [], fun _ => true, fun _ _ => []⟩

/-- A filesystem on which only the path `/tpl` exists and template files
are empty. -/
def fsT : FS := ⟨fun _ => [], fun p => p = "/tpl", fun _ _ => []⟩

/-- A one-mosaic experiment with 1 percent overlap. -/
def expW : Experiment := ⟨"exp", [⟨[⟨1, [0, 0], "a.tif"⟩], "", 1, 1⟩]⟩

/-- The macro generated for `expW` with input path `C:\data` and the
templates of `fsT`. -/
def macroFix : List String :=
  ["// Generated by micrometa.imagej (0.1).\n\n",
   "// =================== BEGIN macro HEAD ===================\n",
   "// ==================== END macro HEAD ====================\n",
   "\n",
   "name = \"exp\";\n",
   "input_dir=\"C:\\\\data\";\n",
   "use_batch_mode = true;\n",
   "compute = false;\n",
   "\n",
   "// =================== BEGIN macro BODY ===================\n",
   "// ==================== END macro BODY ====================\n"]

/-- A mosaic whose sub-volume path does not start with the storage path. -/
def mC10 : MosaicData := ⟨[⟨1, [0, 0], "/data/t.tif"⟩], "/other/", 1, 2⟩

/-- The configuration generated for `mC10`: the full path is kept. -/
def confC10 : List String :=
  ["# Generated by micrometa.imagej (0.1).\n#\n",
   "# Define the number of dimensions we are working on\n",
   "dim = 2\n",
   "# Define the image coordinates (in pixels)\n",
   "/data/t.tif; ; (0.000000, 0.000000)\n"]

/-! ### Helper lemmas -/

theorem strDataAppend (a b : String) : (a ++ b).data = a.data ++ b.data := rfl

theorem optionMapList_mem {α β : Type} {f : α → Option β} :
    ∀ {l : List α} {bs : List β}, optionMapList f l = some bs →
      ∀ b ∈ bs, ∃ a ∈ l, f a = some b := by
  intro l
  induction l with
  | nil =>
    intro bs h b hb
    simp only [optionMapList, Option.some.injEq] at h
    subst h
    cases hb
  | cons a as ih =>
    intro bs h b hb
    simp only [optionMapList] at h
    cases hfa : f a with
    | none => rw [hfa] at h; exact absurd h (by simp)
    | some b0 =>
      rw [hfa] at h
      cases hrest : optionMapList f as with
      | none => rw [hrest] at h; exact absurd h (by simp)
      | some bs0 =>
        rw [hrest] at h
        simp only [Option.some.injEq] at h
        subst h
        rcases List.mem_cons.mp hb with rfl | hb0
        · exact ⟨a, List.mem_cons_self a as, hfa⟩
        · obtain ⟨a', ha', hfa'⟩ := ih hrest b hb0
          exact ⟨a', List.mem_cons_of_mem a ha', hfa'⟩

theorem optionMapList_get {α β : Type} {f : α → Option β} :
    ∀ {l : List α} {bs : List β}, optionMapList f l = some bs →
      bs.length = l.length ∧ ∀ i : Nat, ∀ a, l[i]? = some a → bs[i]? = f a := by
  intro l
  induction l with
  | nil =>
    intro bs h
    simp only [optionMapList, Option.some.injEq] at h
    subst h
    exact ⟨rfl, by intro i a ha; simp at ha⟩
  | cons a as ih =>
    intro bs h
    simp only [optionMapList] at h
    cases hfa : f a with
    | none => rw [hfa] at h; exact absurd h (by simp)
    | some b0 =>
      rw [hfa] at h
      cases hrest : optionMapList f as with
      | none => rw [hrest] at h; exact absurd h (by simp)
      | some bs0 =>
        rw [hrest] at h
        simp only [Option.some.injEq] at h
        subst h
        obtain ⟨hlen, hget⟩ := ih hrest
        refine ⟨by simp [hlen], ?_⟩
        intro i x hx
        cases i with
        | zero => simp at hx; subst hx; simp [hfa]
        | succ j => simp only [List.getElem?_cons_succ] at hx ⊢; exact hget j x hx

theorem applyCoordFmt_two_shape {rel : List Rat} {s : String}
    (h : applyCoordFmt .two rel = some s) : ∃ x y, rel = [x, y] ∧ s = coord2Str x y := by
  match rel with
  | [x, y] =>
    refine ⟨x, y, rfl, ?_⟩
    simpa [applyCoordFmt] using h.symm
  | [] => simp [applyCoordFmt] at h
  | [_] => simp [applyCoordFmt] at h
  | _ :: _ :: _ :: _ => simp [applyCoordFmt] at h

theorem applyCoordFmt_threePad_shape {rel : List Rat} {s : String}
    (h : applyCoordFmt .threePad rel = some s) :
    ∃ x y, rel = [x, y] ∧ s = coord3Str x y "0.0" := by
  match rel with
  | [x, y] =>
    refine ⟨x, y, rfl, ?_⟩
    simpa [applyCoordFmt] using h.symm
  | [] => simp [applyCoordFmt] at h
  | [_] => simp [applyCoordFmt] at h
  | _ :: _ :: _ :: _ => simp [applyCoordFmt] at h

theorem applyCoordFmt_three_shape {rel : List Rat} {s : String}
    (h : applyCoordFmt .three rel = some s) :
    ∃ x y z, rel = [x, y, z] ∧ s = coord3Str x y (pyFloat z) := by
  match rel with
  | [x, y, z] =>
    refine ⟨x, y, z, rfl, ?_⟩
    simpa [applyCoordFmt] using h.symm
  | [] => simp [applyCoordFmt] at h
  | [_] => simp [applyCoordFmt] at h
  | [_, _] => simp [applyCoordFmt] at h
  | _ :: _ :: _ :: _ :: _ => simp [applyCoordFmt] at h

theorem tileLine_shape {fmt : CoordFmt} {sp : String} {v : SubVolume} {l : String}
    (h : tileLine fmt sp v = some l) :
    ∃ cstr, applyCoordFmt fmt v.relative = some cstr ∧
      l = pyReplaceChar
            ((if pyStartsWith v.storageFull sp then pyDrop v.storageFull sp.length
              else v.storageFull) ++ "; ; ") '\\' "/" ++ cstr := by
  unfold tileLine at h
  cases hc : applyCoordFmt fmt v.relative with
  | none => rw [hc] at h; exact absurd h (by simp)
  | some c =>
    rw [hc] at h
    simp only [Option.map_some', Option.some.injEq] at h
    exact ⟨c, rfl, h.symm⟩

theorem gen_tile_config_parts {version : String} {m : MosaicData} {conf : List String}
    (h : gen_tile_config version m = some conf) :
    ∃ v0 lines, m.subvol.head? = some v0 ∧
      optionMapList (tileLine (chooseFmt v0) m.storagePath) m.subvol = some lines ∧
      conf = ("# Generated by micrometa.imagej (" ++ version ++ ").\n#\n") ::
        "# Define the number of dimensions we are working on\n" ::
        dimLineOf v0 ::
        "# Define the image coordinates (in pixels)\n" :: lines := by
  cases hsv : m.subvol with
  | nil =>
    simp only [gen_tile_config, hsv] at h
    exact absurd h (by simp)
  | cons v0 t =>
    simp only [gen_tile_config, hsv] at h
    cases hml : optionMapList (tileLine (chooseFmt v0) m.storagePath) (v0 :: t) with
    | none => rw [hml] at h; exact absurd h (by simp)
    | some lines =>
      rw [hml] at h
      simp only [Option.map_some', Option.some.injEq] at h
      exact ⟨v0, lines, rfl, hml, h.symm⟩

theorem lexLe_refl : ∀ l : List Char, lexLe l l = true := by
  intro l
  induction l with
  | nil => rfl
  | cons a as ih => simp [lexLe, ih]

theorem lexLe_total : ∀ a b : List Char, lexLe a b = true ∨ lexLe b a = true
  | [], _ => Or.inl rfl
  | _ :: _, [] => Or.inr rfl
  | a :: as, b :: bs => by
    by_cases h1 : a.toNat < b.toNat
    · left; simp [lexLe, h1]
    · by_cases h2 : b.toNat < a.toNat
      · right; simp [lexLe, h2]
      · cases lexLe_total as bs with
        | inl h => left; simp [lexLe, h1, h2, h]
        | inr h => right; simp [lexLe, h1, h2, h]

theorem lexLe_trans : ∀ a b c : List Char,
    lexLe a b = true → lexLe b c = true → lexLe a c = true
  | [], _, _, _, _ => rfl
  | _ :: _, [], _, hab, _ => by simp [lexLe] at hab
  | _ :: _, _ :: _, [], _, hbc => by simp [lexLe] at hbc
  | a :: as, b :: bs, c :: cs, hab, hbc => by
    simp only [lexLe] at hab hbc ⊢
    by_cases h1 : a.toNat < b.toNat
    · by_cases h2 : b.toNat < c.toNat
      · simp [show a.toNat < c.toNat by omega]
      · simp only [h2, if_false] at hbc
        by_cases h3 : c.toNat < b.toNat
        · simp [h3] at hbc
        · simp [show a.toNat < c.toNat by omega]
    · simp only [h1, if_false] at hab
      by_cases h1' : b.toNat < a.toNat
      · simp [h1'] at hab
      · simp only [h1', if_false] at hab
        by_cases h2 : b.toNat < c.toNat
        · simp [show a.toNat < c.toNat by omega]
        · simp only [h2, if_false] at hbc
          by_cases h3 : c.toNat < b.toNat
          · simp [h3] at hbc
          · rw [if_neg h3] at hbc
            have hac : ¬a.toNat < c.toNat := by omega
            have hca : ¬c.toNat < a.toNat := by omega
            simp [hac, hca, lexLe_trans as bs cs hab hbc]

instance : IsTotal String pyLeR := ⟨fun a b => lexLe_total a.data b.data⟩

instance : IsTrans String pyLeR := ⟨fun a b c => lexLe_trans a.data b.data c.data⟩

theorem getLast?_mem_self : ∀ {l : List String} {a : String}, l.getLast? = some a → a ∈ l := by
  intro l
  induction l with
  | nil => intro a h; simp at h
  | cons x xs ih =>
    intro a h
    cases xs with
    | nil => simp at h; subst h; exact List.mem_singleton_self x
    | cons y ys =>
      rw [List.getLast?_cons_cons] at h
      exact List.mem_cons_of_mem x (ih h)

theorem sorted_pyLeR_getLast_max : ∀ {l : List String}, List.Sorted pyLeR l →
    ∀ {la : String}, l.getLast? = some la → ∀ x ∈ l, pyStrLe x la = true := by
  intro l
  induction l with
  | nil => intro _ la h; simp at h
  | cons a as ih =>
    intro hs la hla x hx
    cases as with
    | nil =>
      simp at hla hx
      subst hla; subst hx
      exact lexLe_refl _
    | cons b bs =>
      rw [List.getLast?_cons_cons] at hla
      obtain ⟨hrel, hs'⟩ := List.sorted_cons.mp hs
      rcases List.mem_cons.mp hx with rfl | hx0
      · exact hrel la (getLast?_mem_self hla)
      · exact ih hs' hla x hx0

theorem replaceCharList_not_mem {c : Char} {r : List Char} (hr : c ∉ r) :
    ∀ l : List Char, c ∉ replaceCharList c r l := by
  intro l
  induction l with
  | nil => simp [replaceCharList]
  | cons a as ih =>
    simp only [replaceCharList, List.mem_append]
    intro hmem
    rcases hmem with hl | hrest
    · by_cases ha : a = c
      · rw [if_pos ha] at hl; exact hr hl
      · rw [if_neg ha] at hl
        exact ha (List.mem_singleton.mp hl).symm
    · exact ih hrest

theorem toDigitsCore_all {P : Char → Prop} (hP : ∀ m, m < 10 → P (Nat.digitChar m)) :
    ∀ (fuel n : Nat) (ds : List Char), (∀ c ∈ ds, P c) →
      ∀ c ∈ Nat.toDigitsCore 10 fuel n ds, P c := by
  intro fuel
  induction fuel with
  | zero => intro n ds hds c hc; exact hds c hc
  | succ f ih =>
    intro n ds hds c hc
    simp only [Nat.toDigitsCore] at hc
    have hd : P (Nat.digitChar (n % 10)) := hP _ (Nat.mod_lt _ (by omega))
    by_cases hz : n / 10 = 0
    · rw [if_pos hz] at hc
      rcases List.mem_cons.mp hc with rfl | hmem
      · exact hd
      · exact hds c hmem
    · rw [if_neg hz] at hc
      refine ih _ _ ?_ c hc
      intro d hd'
      rcases List.mem_cons.mp hd' with rfl | hmem
      · exact hd
      · exact hds d hmem

theorem toString_nat_no_backslash (n : Nat) : '\\' ∉ (toString n).data := by
  intro hmem
  have hd : ∀ m, m < 10 → Nat.digitChar m ≠ '\\' := by decide
  exact toDigitsCore_all (P := fun c => c ≠ '\\') hd (n + 1) n []
    (by intro c hc; cases hc) '\\' hmem rfl

theorem pyFloat_no_backslash (q : Rat) : '\\' ∉ (pyFloat q).data := by
  unfold pyFloat pyZFill
  intro hmem
  simp only [strDataAppend, List.mem_append] at hmem
  rcases hmem with ((hsgn | h1) | hdot) | (hpad | h2)
  · by_cases hneg : Int.fdiv (2000000 * q.num + q.den) (2 * q.den) < 0
    · rw [if_pos hneg] at hsgn; simp at hsgn
    · rw [if_neg hneg] at hsgn; simp at hsgn
  · exact toString_nat_no_backslash _ h1
  · simp at hdot
  · have := List.eq_of_mem_replicate hpad
    simp at this
  · exact toString_nat_no_backslash _ h2

theorem write_tile_config_fst {version : String} {m : MosaicData} {outdir : String}
    {padlen : Nat} {w : String × List String}
    (h : write_tile_config version m outdir padlen = some w) :
    w.1 = (if outdir = "" then
             posixJoin m.storagePath ("mosaic_" ++ pyZFill padlen (toString m.index) ++ ".txt")
           else
             posixJoin outdir ("mosaic_" ++ pyZFill padlen (toString m.index) ++ ".txt")) := by
  unfold write_tile_config at h
  cases hg : gen_tile_config version m with
  | none => rw [hg] at h; exact absurd h (by simp)
  | some conf =>
    rw [hg] at h
    simp only [Option.map_some', Option.some.injEq] at h
    rw [← h]

theorem append2_ne_of_head {pre x post t : String} {c : Char}
    (hpre : pre.data.head? = some c) (ht : t.data.head? ≠ some c) :
    pre ++ x ++ post ≠ t := by
  intro h
  apply ht
  have hd := congrArg (fun s : String => s.data.head?) h
  simp only [strDataAppend, List.head?_append, hpre, Option.or_some] at hd
  exact hd.symm ▸ rfl

theorem gen_stitching_macro_code_shape {fs : FS} {fileDir version : String}
    {e : Experiment} {pfx path tplpath : String} {opts : List (String × String)}
    {tpl : String} {m0 : MosaicData} {ijm : List String}
    (htpl : locate_templates fs fileDir tplpath = Except.ok tpl)
    (h0 : e.mosaics.head? = some m0)
    (hok : gen_stitching_macro_code fs fileDir version e pfx path tplpath opts
      = Except.ok ijm) :
    ijm = ["// Generated by micrometa.imagej (" ++ version ++ ").\n\n",
           "// =================== BEGIN macro HEAD ===================\n"]
      ++ fs.readtxt (pfx ++ "_head.ijm") tpl
      ++ ["// ==================== END macro HEAD ====================\n",
          "\n",
          "name = \"" ++ e.infileDname ++ "\";\n",
          "input_dir=\"" ++ pyReplaceChar path '\\' "\\\\" ++ "\";\n",
          "use_batch_mode = true;\n"]
      ++ opts.map (fun kv => kv.1 ++ " = " ++ kv.2 ++ ";\n")
      ++ (if m0.overlapPct < 5 then ["compute = false;\n"] else [])
      ++ ["\n",
          "// =================== BEGIN macro BODY ===================\n"]
      ++ fs.readtxt (pfx ++ "_body.ijm") tpl
      ++ ["// ==================== END macro BODY ====================\n"] := by
  simp only [gen_stitching_macro_code, htpl, h0, Except.ok.injEq] at hok
  exact hok.symm

theorem coord2Str_no_backslash (x y : Rat) : '\\' ∉ (coord2Str x y).data := by
  intro hmem
  simp only [coord2Str, strDataAppend, List.mem_append] at hmem
  rcases hmem with (((h1 | h2) | h3) | h4) | h5
  · exact absurd h1 (by decide)
  · exact pyFloat_no_backslash x h2
  · exact absurd h3 (by decide)
  · exact pyFloat_no_backslash y h4
  · exact absurd h5 (by decide)

theorem coord3Str_no_backslash (x y : Rat) {z : String} (hz : '\\' ∉ z.data) :
    '\\' ∉ (coord3Str x y z).data := by
  intro hmem
  simp only [coord3Str, strDataAppend, List.mem_append] at hmem
  rcases hmem with (((((h1 | h2) | h3) | h4) | h5) | h6) | h7
  · exact absurd h1 (by decide)
  · exact pyFloat_no_backslash x h2
  · exact absurd h3 (by decide)
  · exact pyFloat_no_backslash y h4
  · exact absurd h5 (by decide)
  · exact hz h6
  · exact absurd h7 (by decide)

theorem applyCoordFmt_no_backslash {fmt : CoordFmt} {rel : List Rat} {s : String}
    (h : applyCoordFmt fmt rel = some s) : '\\' ∉ s.data := by
  cases fmt with
  | two =>
    obtain ⟨x, y, _, rfl⟩ := applyCoordFmt_two_shape h
    exact coord2Str_no_backslash x y
  | threePad =>
    obtain ⟨x, y, _, rfl⟩ := applyCoordFmt_threePad_shape h
    exact coord3Str_no_backslash x y (by decide)
  | three =>
    obtain ⟨x, y, z, _, rfl⟩ := applyCoordFmt_three_shape h
    exact coord3Str_no_backslash x y (pyFloat_no_backslash z)

/-! ### Claims -/

/-- C1: for every mosaic whose first sub-volume has z-dimension not
exceeding 1, gen_tile_config emits a `dim = 2` declaration (as the third
output line) and every coordinate line carries exactly two formatted
floating-point coordinates; when the z-dimension exceeds 1 it emits
`dim = 3` and three coordinate columns per line, each column a
floating-point literal. -/
theorem C1_tile_config_dimensionality (version : String) (m : MosaicData) (v0 : SubVolume)
    (conf : List String)
    (h0 : m.subvol.head? = some v0)
    (hc : gen_tile_config version m = some conf) :
    (v0.dimZ ≤ 1 →
      conf[2]? = some "dim = 2\n" ∧
      ∀ l ∈ conf.drop 4, ∃ p x y, l = p ++ coord2Str x y) ∧
    (1 < v0.dimZ →
      conf[2]? = some "dim = 3\n" ∧
      ∀ l ∈ conf.drop 4, ∃ p x y zs, l = p ++ coord3Str x y zs ∧
        (zs = "0.0" ∨ ∃ z, zs = pyFloat z)) := by
  obtain ⟨v0', lines, h0', hml, hconf⟩ := gen_tile_config_parts hc
  rw [h0] at h0'
  injection h0' with h0''
  subst h0''
  subst hconf
  constructor
  · intro hz
    have hfmt : chooseFmt v0 = CoordFmt.two := by
      unfold chooseFmt
      rw [if_neg (by omega)]
    constructor
    · simp [dimLineOf, if_neg (show ¬v0.dimZ > 1 by omega)]
    · intro l hl
      simp only [List.drop_succ_cons, List.drop_zero] at hl
      obtain ⟨v, _, htl⟩ := optionMapList_mem hml l hl
      rw [hfmt] at htl
      obtain ⟨cstr, hcf, hshape⟩ := tileLine_shape htl
      obtain ⟨x, y, _, hcs⟩ := applyCoordFmt_two_shape hcf
      exact ⟨_, x, y, by rw [hshape, hcs]⟩
  · intro hz
    constructor
    · simp [dimLineOf, if_pos (show v0.dimZ > 1 by omega)]
    · intro l hl
      simp only [List.drop_succ_cons, List.drop_zero] at hl
      obtain ⟨v, _, htl⟩ := optionMapList_mem hml l hl
      by_cases hlen : v0.relative.length < 3
      · have hfmt : chooseFmt v0 = CoordFmt.threePad := by
          unfold chooseFmt
          rw [if_pos (by omega), if_pos hlen]
        rw [hfmt] at htl
        obtain ⟨cstr, hcf, hshape⟩ := tileLine_shape htl
        obtain ⟨x, y, _, hcs⟩ := applyCoordFmt_threePad_shape hcf
        exact ⟨_, x, y, "0.0", by rw [hshape, hcs], Or.inl rfl⟩
      · have hfmt : chooseFmt v0 = CoordFmt.three := by
          unfold chooseFmt
          rw [if_pos (by omega), if_neg hlen]
        rw [hfmt] at htl
        obtain ⟨cstr, hcf, hshape⟩ := tileLine_shape htl
        obtain ⟨x, y, z, _, hcs⟩ := applyCoordFmt_three_shape hcf
        exact ⟨_, x, y, pyFloat z, by rw [hshape, hcs], Or.inr ⟨z, rfl⟩⟩

/-- Witness for C1 at the concrete 2-D mosaic `mC1`. -/
theorem C1_witness :
    ((1 : Nat) ≤ 1 →
      confC1[2]? = some "dim = 2\n" ∧
      ∀ l ∈ confC1.drop 4, ∃ p x y, l = p ++ coord2Str x y) ∧
    (1 < (1 : Nat) →
      confC1[2]? = some "dim = 3\n" ∧
      ∀ l ∈ confC1.drop 4, ∃ p x y zs, l = p ++ coord3Str x y zs ∧
        (zs = "0.0" ∨ ∃ z, zs = pyFloat z)) :=
  C1_tile_config_dimensionality "0.1" mC1 ⟨1, [0, 0], "/data/m/t1.tif"⟩ confC1
    (by decide) (by decide)

/-- C2: for every mosaic declared 3-D (first sub-volume z-dimension
above 1) whose relative position data has fewer than 3 components,
every coordinate line emitted by gen_tile_config ends in a z-coordinate
that is the literal `0.0`. -/
theorem C2_padded_z_coordinate (version : String) (m : MosaicData) (v0 : SubVolume)
    (conf : List String)
    (h0 : m.subvol.head? = some v0)
    (hz : 1 < v0.dimZ) (hdim : v0.relative.length < 3)
    (hc : gen_tile_config version m = some conf) :
    ∀ l ∈ conf.drop 4, ∃ p x y, l = p ++ coord3Str x y "0.0" := by
  obtain ⟨v0', lines, h0', hml, hconf⟩ := gen_tile_config_parts hc
  rw [h0] at h0'
  injection h0' with h0''
  subst h0''
  subst hconf
  intro l hl
  simp only [List.drop_succ_cons, List.drop_zero] at hl
  obtain ⟨v, _, htl⟩ := optionMapList_mem hml l hl
  have hfmt : chooseFmt v0 = CoordFmt.threePad := by
    unfold chooseFmt
    rw [if_pos (by omega), if_pos hdim]
  rw [hfmt] at htl
  obtain ⟨cstr, hcf, hshape⟩ := tileLine_shape htl
  obtain ⟨x, y, _, hcs⟩ := applyCoordFmt_threePad_shape hcf
  exact ⟨_, x, y, by rw [hshape, hcs]⟩

/-- Witness for C2 at the concrete 3-D mosaic `mC2` with 2-D positions. -/
theorem C2_witness :
    (1 : Nat) < 5 ∧ (2 : Nat) < 3 ∧
      ∀ l ∈ confC2.drop 4, ∃ p x y, l = p ++ coord3Str x y "0.0" :=
  ⟨by decide, by decide,
    C2_padded_z_coordinate "0.1" mC2 ⟨5, [1, 2], "/data/m/t1.tif"⟩ confC2
      (by decide) (by decide) (by decide) (by decide)⟩

/-- C10: in gen_tile_config, a coordinate line carries the sub-volume
path stripped of the mosaic storage path exactly when the full path
starts with that storage path as a string prefix; otherwise the full
path is emitted unshortened. -/
theorem C10_path_shortening (version : String) (m : MosaicData) (conf : List String)
    (hc : gen_tile_config version m = some conf) :
    ∀ l ∈ conf.drop 4, ∃ v ∈ m.subvol,
      (pyStartsWith v.storageFull m.storagePath = true →
        ∃ cstr, l = pyReplaceChar
          (pyDrop v.storageFull m.storagePath.length ++ "; ; ") '\\' "/" ++ cstr) ∧
      (pyStartsWith v.storageFull m.storagePath = false →
        ∃ cstr, l = pyReplaceChar (v.storageFull ++ "; ; ") '\\' "/" ++ cstr) := by
  obtain ⟨v0, lines, h0, hml, hconf⟩ := gen_tile_config_parts hc
  subst hconf
  intro l hl
  simp only [List.drop_succ_cons, List.drop_zero] at hl
  obtain ⟨v, hv, htl⟩ := optionMapList_mem hml l hl
  obtain ⟨cstr, hcf, hshape⟩ := tileLine_shape htl
  refine ⟨v, hv, ?_, ?_⟩
  · intro hsw
    refine ⟨cstr, ?_⟩
    rw [hshape, hsw]
    simp
  · intro hsw
    refine ⟨cstr, ?_⟩
    rw [hshape, hsw]
    simp

/-- Witness for C10 at the concrete mosaic `mC10`, whose sub-volume path
does not start with the storage path. -/
theorem C10_witness :
    gen_tile_config "0.1" mC10 = some confC10 ∧
    ∀ l ∈ confC10.drop 4, ∃ v ∈ mC10.subvol,
      (pyStartsWith v.storageFull mC10.storagePath = true →
        ∃ cstr, l = pyReplaceChar
          (pyDrop v.storageFull mC10.storagePath.length ++ "; ; ") '\\' "/" ++ cstr) ∧
      (pyStartsWith v.storageFull mC10.storagePath = false →
        ∃ cstr, l = pyReplaceChar (v.storageFull ++ "; ; ") '\\' "/" ++ cstr) :=
  ⟨by decide, C10_path_shortening "0.1" mC10 confC10 (by decide)⟩

/-- C3 counterexample: on a two-mosaic experiment whose mosaic indexes
are 1 and 100, the code pads filenames to the width of the mosaic count
(`len(str(2)) = 1`) and writes `mosaic_1.txt`, while padding to the
width of the largest index (100, width 3) would give `mosaic_001.txt`,
which is not among the written filenames. -/
theorem C3_counterexample :
    (write_all_tile_configs "0.1" expC3 "out").map (fun ws => ws.map Prod.fst)
        = some ["out/mosaic_1.txt", "out/mosaic_100.txt"] ∧
    (expC3.mosaics.map (fun m => m.index)).foldr max 0 = 100 ∧
    (toString (100 : Nat)).length = 3 ∧
    posixJoin "out" ("mosaic_" ++ pyZFill 3 (toString (1 : Nat)) ++ ".txt")
        = "out/mosaic_001.txt" ∧
    "out/mosaic_001.txt" ∉ ["out/mosaic_1.txt", "out/mosaic_100.txt"] := by decide

/-- C3 amended: write_all_tile_configs writes each mosaic configuration
to `mosaic_<index>.txt` with the index zero-padded to the width of the
decimal representation of the mosaic count (`len(str(N))`), joined onto
the output directory (the mosaic storage path when `outdir` is
empty). -/
theorem C3_amended_padding (version : String) (experiment : Experiment) (outdir : String)
    (ws : List (String × List String))
    (hw : write_all_tile_configs version experiment outdir = some ws) :
    ws.length = experiment.mosaics.length ∧
    ∀ i : Nat, ∀ m, experiment.mosaics[i]? = some m →
      ∃ w, ws[i]? = some w ∧
        w.1 = (if outdir = "" then
                 posixJoin m.storagePath
                   ("mosaic_" ++ pyZFill (toString experiment.mosaics.length).length
                     (toString m.index) ++ ".txt")
               else
                 posixJoin outdir
                   ("mosaic_" ++ pyZFill (toString experiment.mosaics.length).length
                     (toString m.index) ++ ".txt")) := by
  unfold write_all_tile_configs at hw
  obtain ⟨hlen, hget⟩ := optionMapList_get hw
  refine ⟨hlen, ?_⟩
  intro i m hm
  have hwi := hget i m hm
  cases hww : write_tile_config version m outdir (toString experiment.mosaics.length).length with
  | none =>
    rw [hww] at hwi
    have hi : i < experiment.mosaics.length := by
      rcases List.getElem?_eq_some.mp hm with ⟨hi, _⟩
      exact hi
    have : ws[i]? = none := hwi
    rw [List.getElem?_eq_none_iff] at this
    omega
  | some w =>
    rw [hww] at hwi
    exact ⟨w, hwi, write_tile_config_fst hww⟩

/-- Witness for the amended C3 at the concrete experiment `expC3`. -/
theorem C3_witness :
    wsC3.length = expC3.mosaics.length ∧
    ∀ i : Nat, ∀ m, expC3.mosaics[i]? = some m →
      ∃ w, wsC3[i]? = some w ∧
        w.1 = (if "out" = "" then
                 posixJoin m.storagePath
                   ("mosaic_" ++ pyZFill (toString expC3.mosaics.length).length
                     (toString m.index) ++ ".txt")
               else
                 posixJoin "out"
                   ("mosaic_" ++ pyZFill (toString expC3.mosaics.length).length
                     (toString m.index) ++ ".txt")) :=
  C3_amended_padding "0.1" expC3 "out" wsC3 (by decide)

/-- C4: when locate_templates is given a path ending in `.jar` whose
containing directory holds at least one name starting with the base
name of the jar (and the corresponding joined paths exist), it returns
the joined path of the lexically-last such name. -/
theorem C4_jar_lexically_last (fs : FS) (fileDir tplpath : String)
    (hne : tplpath ≠ "")
    (hjar : pyEndsWith (pyToLower tplpath) ".jar" = true)
    (hcand : jarCandidates fs tplpath ≠ [])
    (hex : ∀ c ∈ jarCandidates fs tplpath,
      fs.pathExists (posixJoin (dirname tplpath) c) = true) :
    ∃ best, locate_templates fs fileDir tplpath =
        Except.ok (posixJoin (dirname tplpath) best) ∧
      best ∈ jarCandidates fs tplpath ∧
      ∀ c ∈ jarCandidates fs tplpath, pyStrLe c best = true := by
  have hdef : defaultedTplPath fs fileDir tplpath = tplpath := by
    unfold defaultedTplPath
    rw [if_neg hne]
  have hsne : List.insertionSort pyLeR (jarCandidates fs tplpath) ≠ [] := by
    intro hnil
    apply hcand
    have hp := List.perm_insertionSort pyLeR (jarCandidates fs tplpath)
    rw [hnil] at hp
    exact (List.Perm.nil_eq hp).symm
  set sorted := List.insertionSort pyLeR (jarCandidates fs tplpath) with hsorted
  have hlast : sorted.getLast? = some (sorted.getLast hsne) :=
    List.getLast?_eq_getLast sorted hsne
  set best := sorted.getLast hsne with hbest
  have hmem : best ∈ jarCandidates fs tplpath := by
    have : best ∈ sorted := List.getLast_mem hsne
    exact (List.Perm.mem_iff (List.perm_insertionSort pyLeR _)).mp this
  have hmax : ∀ c ∈ jarCandidates fs tplpath, pyStrLe c best = true := by
    intro c hcm
    have hcs : c ∈ sorted :=
      (List.Perm.mem_iff (List.perm_insertionSort pyLeR _)).mpr hcm
    exact sorted_pyLeR_getLast_max (List.sorted_insertionSort pyLeR _) hlast c hcs
  refine ⟨best, ?_, hmem, hmax⟩
  simp only [locate_templates, hdef, hjar, if_true, ← hsorted, hlast]
  simp only [hex best hmem, if_true]

/-- Witness for C4 at the concrete filesystem `fsW` holding
`foo-1.0.0.jar` and `foo-1.2.0.jar`. -/
theorem C4_witness :
    ∃ best, locate_templates fsW "/pkg" "/lib/foo.jar" =
        Except.ok (posixJoin (dirname "/lib/foo.jar") best) ∧
      best ∈ jarCandidates fsW "/lib/foo.jar" ∧
      ∀ c ∈ jarCandidates fsW "/lib/foo.jar", pyStrLe c best = true :=
  C4_jar_lexically_last fsW "/pkg" "/lib/foo.jar"
    (by decide) (by decide) (by decide) (by decide)

/-- C5 counterexample: a `.jar` path whose directory holds no matching
candidate makes locate_templates raise `IndexError` (from
`candidates[-1]` on an empty list), which is not an `IOError`, so the
function does not fail with exactly one error kind. -/
theorem C5_counterexample :
    locate_templates fsE "/pkg" "/lib/foo.jar" = Except.error PyErr.indexError ∧
    PyErr.isIOError PyErr.indexError = false := by decide

/-- C5 amended: locate_templates fails either with the single `IOError`
(templates location not found), or with `IndexError`, the latter exactly
when the (defaulted) path ends in `.jar` and the containing directory
holds no name sharing its base name. -/
theorem C5_amended_error_kinds (fs : FS) (fileDir tplpath : String) (e : PyErr)
    (he : locate_templates fs fileDir tplpath = Except.error e) :
    e = PyErr.ioError "Templates location can't be found!" ∨
      (e = PyErr.indexError ∧
        pyEndsWith (pyToLower (defaultedTplPath fs fileDir tplpath)) ".jar" = true ∧
        jarCandidates fs (defaultedTplPath fs fileDir tplpath) = []) := by
  simp only [locate_templates] at he
  by_cases hj : pyEndsWith (pyToLower (defaultedTplPath fs fileDir tplpath)) ".jar" = true
  · rw [if_pos hj] at he
    cases hgl : (List.insertionSort pyLeR
        (jarCandidates fs (defaultedTplPath fs fileDir tplpath))).getLast? with
    | none =>
      simp only [hgl] at he
      have hcnil : jarCandidates fs (defaultedTplPath fs fileDir tplpath) = [] := by
        have hp := List.perm_insertionSort pyLeR
          (jarCandidates fs (defaultedTplPath fs fileDir tplpath))
        rw [List.getLast?_eq_none_iff.mp hgl] at hp
        exact (List.Perm.nil_eq hp).symm
      refine Or.inr ⟨?_, hj, hcnil⟩
      injection he with he'
      exact he'.symm
    | some b =>
      simp only [hgl] at he
      by_cases hpe : fs.pathExists (posixJoin
          (dirname (defaultedTplPath fs fileDir tplpath)) b) = true
      · rw [if_pos hpe] at he
        exact absurd he (by simp)
      · rw [if_neg hpe] at he
        injection he with he'
        exact Or.inl he'.symm
  · rw [if_neg hj] at he
    cases hpe : fs.pathExists (defaultedTplPath fs fileDir tplpath) with
    | true => simp [hpe] at he
    | false =>
      simp [hpe] at he
      exact Or.inl he.symm

/-- Witness for the amended C5 at the concrete filesystem `fsE`. -/
theorem C5_witness :
    PyErr.indexError = PyErr.ioError "Templates location can't be found!" ∨
      (PyErr.indexError = PyErr.indexError ∧
        pyEndsWith (pyToLower (defaultedTplPath fsE "/pkg" "/lib/foo.jar")) ".jar" = true ∧
        jarCandidates fsE (defaultedTplPath fsE "/pkg" "/lib/foo.jar") = []) :=
  C5_amended_error_kinds fsE "/pkg" "/lib/foo.jar" PyErr.indexError (by decide)

/-- C6: gen_stitching_macro_code inserts the line `compute = false;`
into the generated macro exactly when the overlap percentage of the
first mosaic is strictly below 5 (provided neither the template lines
nor the caller options already spell that exact line). -/
theorem C6_compute_false_iff (fs : FS) (fileDir version : String) (e : Experiment)
    (pfx path tplpath : String) (opts : List (String × String)) (m0 : MosaicData)
    (ijm : List String)
    (h0 : e.mosaics.head? = some m0)
    (hok : gen_stitching_macro_code fs fileDir version e pfx path tplpath opts
      = Except.ok ijm)
    (hhead : ∀ t, "compute = false;\n" ∉ fs.readtxt (pfx ++ "_head.ijm") t)
    (hbody : ∀ t, "compute = false;\n" ∉ fs.readtxt (pfx ++ "_body.ijm") t)
    (hopts : ∀ kv ∈ opts, kv.1 ++ " = " ++ kv.2 ++ ";\n" ≠ "compute = false;\n") :
    ("compute = false;\n" ∈ ijm ↔ m0.overlapPct < 5) := by
  cases hlt : locate_templates fs fileDir tplpath with
  | error err =>
    simp only [gen_stitching_macro_code, hlt] at hok
    exact Except.noConfusion hok
  | ok tpl =>
    have hshape := gen_stitching_macro_code_shape hlt h0 hok
    subst hshape
    constructor
    · intro hmem
      by_cases hov : m0.overlapPct < 5
      · exact hov
      · exfalso
        rw [if_neg hov] at hmem
        simp only [List.mem_append, List.mem_cons, List.not_mem_nil, or_false,
          List.mem_map] at hmem
        rcases hmem with
          ((((((hm | hm) | hm) | (hm | hm | hm | hm | hm)) | ⟨kv, hkv, hm⟩) |
            (hm | hm)) | hm) | hm
        · exact append2_ne_of_head (c := '/') (by decide) (by decide) hm.symm
        · exact absurd hm (by decide)
        · exact hhead tpl hm
        · exact absurd hm (by decide)
        · exact absurd hm (by decide)
        · exact append2_ne_of_head (c := 'n') (by decide) (by decide) hm.symm
        · exact append2_ne_of_head (c := 'i') (by decide) (by decide) hm.symm
        · exact absurd hm (by decide)
        · exact hopts kv hkv hm
        · exact absurd hm (by decide)
        · exact absurd hm (by decide)
        · exact hbody tpl hm
        · exact absurd hm (by decide)
    · intro hov
      rw [if_pos hov]
      simp

/-- Witness for C6 at the concrete experiment `expW` (1 percent
overlap) with empty templates and no caller options. -/
theorem C6_witness :
    ("compute = false;\n" ∈ macroFix ↔
      (⟨[⟨1, [0, 0], "a.tif"⟩], "", 1, 1⟩ : MosaicData).overlapPct < 5) :=
  C6_compute_false_iff fsT "/pkg" "0.1" expW "stitch" "C:\\data" "/tpl" []
    ⟨[⟨1, [0, 0], "a.tif"⟩], "", 1, 1⟩ macroFix (by decide) (by decide)
    (by intro t; exact List.not_mem_nil _) (by intro t; exact List.not_mem_nil _)
    (by intro kv hkv; cases hkv)

/-- C7 counterexample: with input path `C:\data` the macro generator
emits the line `input_dir="C:\\data";`, which contains backslash path
separators: the input path backslashes are doubled, not turned into
forward slashes. -/
theorem C7_counterexample :
    gen_stitching_macro_code fsT "/pkg" "0.1" expW "stitch" "C:\\data" "/tpl" []
        = Except.ok macroFix ∧
    "input_dir=\"C:\\\\data\";\n" ∈ macroFix ∧
    '\\' ∈ "input_dir=\"C:\\\\data\";\n".data := by decide

/-- C7 amended: in every line emitted by the tile-config generator, path
separators are forward slashes: no emitted line contains a backslash
(provided the version string contains none).  The macro generator
instead doubles the backslashes of its input path. -/
theorem C7_amended_no_backslash (version : String) (m : MosaicData) (conf : List String)
    (hv : '\\' ∉ version.data)
    (hc : gen_tile_config version m = some conf) :
    ∀ l ∈ conf, '\\' ∉ l.data := by
  obtain ⟨v0, lines, h0, hml, hconf⟩ := gen_tile_config_parts hc
  subst hconf
  intro l hl
  rcases List.mem_cons.mp hl with rfl | hl
  · intro hmem
    simp only [strDataAppend, List.mem_append] at hmem
    rcases hmem with (h1 | h2) | h3
    · exact absurd h1 (by decide)
    · exact hv h2
    · exact absurd h3 (by decide)
  rcases List.mem_cons.mp hl with rfl | hl
  · exact (by decide : '\\' ∉ "# Define the number of dimensions we are working on\n".data)
  rcases List.mem_cons.mp hl with rfl | hl
  · unfold dimLineOf
    split
    · exact (by decide : '\\' ∉ "dim = 3\n".data)
    · exact (by decide : '\\' ∉ "dim = 2\n".data)
  rcases List.mem_cons.mp hl with rfl | hl
  · exact (by decide : '\\' ∉ "# Define the image coordinates (in pixels)\n".data)
  obtain ⟨v, _, htl⟩ := optionMapList_mem hml l hl
  obtain ⟨cstr, hcf, hshape⟩ := tileLine_shape htl
  subst hshape
  intro hmem
  rw [strDataAppend] at hmem
  rcases List.mem_append.mp hmem with h1 | h2
  · exact replaceCharList_not_mem (by decide) _ h1
  · exact applyCoordFmt_no_backslash hcf h2

/-- Witness for the amended C7 at the concrete mosaic `mC1`. -/
theorem C7_witness :
    ('\\' ∉ "0.1".data) ∧ ∀ l ∈ confC1, '\\' ∉ l.data :=
  ⟨by decide, C7_amended_no_backslash "0.1" mC1 confC1 (by decide) (by decide)⟩

/-- C8: gen_stitching_macro_code emits, in this order: the generator
comment, the head marker, the head template lines, the end-head marker,
a blank line, the experiment name assignment, the input path assignment
with backslashes doubled, the batch-mode flag, one key=value assignment
per caller option, the conditional `compute = false;` line (exactly when
the overlap is below 5 percent), a blank line, the body marker, the body
template lines, and the end-body marker. -/
theorem C8_macro_line_order (fs : FS) (fileDir version : String) (e : Experiment)
    (pfx path tplpath : String) (opts : List (String × String)) (tpl : String)
    (m0 : MosaicData) (ijm : List String)
    (htpl : locate_templates fs fileDir tplpath = Except.ok tpl)
    (h0 : e.mosaics.head? = some m0)
    (hok : gen_stitching_macro_code fs fileDir version e pfx path tplpath opts
      = Except.ok ijm) :
    ijm = ["// Generated by micrometa.imagej (" ++ version ++ ").\n\n",
           "// =================== BEGIN macro HEAD ===================\n"]
      ++ fs.readtxt (pfx ++ "_head.ijm") tpl
      ++ ["// ==================== END macro HEAD ====================\n",
          "\n",
          "name = \"" ++ e.infileDname ++ "\";\n",
          "input_dir=\"" ++ pyReplaceChar path '\\' "\\\\" ++ "\";\n",
          "use_batch_mode = true;\n"]
      ++ opts.map (fun kv => kv.1 ++ " = " ++ kv.2 ++ ";\n")
      ++ (if m0.overlapPct < 5 then ["compute = false;\n"] else [])
      ++ ["\n",
          "// =================== BEGIN macro BODY ===================\n"]
      ++ fs.readtxt (pfx ++ "_body.ijm") tpl
      ++ ["// ==================== END macro BODY ====================\n"] :=
  gen_stitching_macro_code_shape htpl h0 hok

/-- Witness for C8 at the concrete experiment `expW` with empty
templates. -/
theorem C8_witness :
    macroFix = ["// Generated by micrometa.imagej (" ++ "0.1" ++ ").\n\n",
           "// =================== BEGIN macro HEAD ===================\n"]
      ++ fsT.readtxt ("stitch" ++ "_head.ijm") "/tpl"
      ++ ["// ==================== END macro HEAD ====================\n",
          "\n",
          "name = \"" ++ expW.infileDname ++ "\";\n",
          "input_dir=\"" ++ pyReplaceChar "C:\\data" '\\' "\\\\" ++ "\";\n",
          "use_batch_mode = true;\n"]
      ++ ([] : List (String × String)).map (fun kv => kv.1 ++ " = " ++ kv.2 ++ ";\n")
      ++ (if (⟨[⟨1, [0, 0], "a.tif"⟩], "", 1, 1⟩ : MosaicData).overlapPct < 5
          then ["compute = false;\n"] else [])
      ++ ["\n",
          "// =================== BEGIN macro BODY ===================\n"]
      ++ fsT.readtxt ("stitch" ++ "_body.ijm") "/tpl"
      ++ ["// ==================== END macro BODY ====================\n"] :=
  C8_macro_line_order fsT "/pkg" "0.1" expW "stitch" "C:\\data" "/tpl" [] "/tpl"
    ⟨[⟨1, [0, 0], "a.tif"⟩], "", 1, 1⟩ macroFix (by decide) (by decide) (by decide)

/-- C9 counterexample: when the write fails, write_tile_config never
reaches its close call, so closure of the file handle is not guaranteed
for every writing operation. -/
theorem C9_counterexample :
    FileOp.fclose ∉ write_tile_config_ops false ∧
    write_tile_config_ops false = [FileOp.fopen, FileOp.fwrite] := by decide

/-- C9 amended: write_stitching_macro opens, writes and closes with
closure guaranteed also when the write fails (scoped handle);
write_tile_config opens, writes and closes on success, but its close
runs only when the write succeeds. -/
theorem C9_amended_handle_closure :
    (∀ b, write_stitching_macro_ops b = [FileOp.fopen, FileOp.fwrite, FileOp.fclose]) ∧
    write_tile_config_ops true = [FileOp.fopen, FileOp.fwrite, FileOp.fclose] ∧
    (∀ b, FileOp.fclose ∈ write_tile_config_ops b ↔ b = true) := by decide

end Micrometa
